import Mathlib

/-!
Verification of the vendor-library ABI compatibility checker
(abi/VtsVndkAbiTest.py).

The embedding models the comparison and reporting engine of the test:

* the symbol differ (source method DiffSymbols, lines 101-125);
* the vtable differ (source method DiffVtables, lines 127-164);
* the library resolver and the per-library scan loop
  (source method ScanLibDirs, lines 166-236);
* the top-level entry point (source method testAbiCompatibility,
  lines 238-264).

External collaborators (the ELF symbol extractor, the vtable extractor
and the file system) are modelled as explicit parameters: symbol sets,
vtable layouts, directory listings and an oracle for the two per-library
diff calls.  Python dictionaries built inside the differs are modelled
as functions with explicit default values; Python dictionaries that are
only looked up are modelled as association lists.
-/

/-! ### Python string primitives -/

/-- Model of the Python expression line.strip: drop leading and trailing
whitespace characters. -/
def pyStrip (s : String) : String :=
  ⟨((s.data.dropWhile Char.isWhitespace).reverse.dropWhile Char.isWhitespace).reverse⟩

/-- Boolean lexicographic comparison of character lists by code point;
this is how Python 2 compares the byte strings held in the dumps. -/
def charListLeb : List Char → List Char → Bool
  | [], _ => true
  | _ :: _, [] => false
  | a :: as, b :: bs =>
    if a.toNat < b.toNat then true
    else if b.toNat < a.toNat then false
    else charListLeb as bs

/-- Lexicographic less-or-equal on strings, the order used by the Python
builtin sorted. -/
def strLe (s t : String) : Prop := charListLeb s.data t.data = true

instance : DecidableRel strLe := fun _ _ => inferInstanceAs (Decidable (_ = true))

/-- Model of the Python expression str(off) for a non-negative integer:
the list of decimal digit characters.  The first argument is structural
recursion fuel; fuel n + 1 always suffices for the value n. -/
def natDigitsAux : Nat → Nat → List Char
  | 0, _ => []
  | fuel + 1, n =>
    if n < 10 then [Nat.digitChar n]
    else natDigitsAux fuel (n / 10) ++ [Nat.digitChar (n % 10)]

/-- Model of the Python expression str(n) for a natural number n. -/
def natStr (n : Nat) : String := ⟨natDigitsAux (n + 1) n⟩

/-- Model of the Python expression ",".join(l). -/
def commaJoin : List String → String
  | [] => ""
  | [s] => s
  | s :: t :: rest => s ++ "," ++ commaJoin (t :: rest)

/-- Model of the Python expression s.startswith(pre). -/
def pyStartsWith (s pre : String) : Bool := pre.data.isPrefixOf s.data

/-! ### Symbol differ (source lines 101-125) -/

/-- The set of symbols read from a symbol dump file, given as the list of
its lines: set(line.strip() for line in dump_file if line.strip()).
The Python set is modelled as a deduplicated list. -/
def readSymbolDump (dumpLines : List String) : List String :=
  ((dumpLines.filter (fun l => pyStrip l ≠ "")).map pyStrip).dedup

/-- Model of DiffSymbols: sorted(dump_symbols.difference(lib_symbols)).
The library is represented by its extracted global dynamic symbol list. -/
def diffSymbols (dumpLines : List String) (libSymbols : List String) : List String :=
  List.insertionSort strLe
    ((readSymbolDump dumpLines).filter (fun s => decide (s ∉ libSymbols)))

/-! ### Vtable differ (source lines 127-164) -/

/-- One row of the vtable diff report:
 (VTABLE, SYMBOL, EXPECTED_OFFSET, ACTUAL_OFFSET). -/
abbrev VtRecord := String × String × String × String

/-- A parsed vtable layout: vtable identifier to ordered (offset, symbol)
entries, as returned by the vtable extractor. -/
abbrev VtLayout := List (String × List (Nat × String))

/-- Dictionary lookup on a vtable layout. -/
def lookupLayout (layout : VtLayout) (vtable : String) : Option (List (Nat × String)) :=
  (layout.find? (fun p => p.1 == vtable)).map Prod.snd

/-- The inverse index lib_inv_vtable built by DiffVtables for one vtable:
symbol to the list of offsets at which it occurs, in insertion order.
A dictionary with list values is modelled as a function defaulting to [];
the source never stores an empty list, so the default marks absence. -/
def buildInvVtable (entries : List (Nat × String)) : String → List Nat :=
  entries.foldl (fun d e => fun s => if s = e.2 then d s ++ [e.1] else d s) (fun _ => [])

/-- Model of DiffVtables: iterate over the golden layout, build the
inverse index from the same-named actual vtable, and append a diff row
per unmatched golden entry.  When the vtable id is absent from the
actual layout the source keeps the empty dictionary, which equals
building the index from an empty entry list. -/
def diffVtables (dumpVtables libVtables : VtLayout) : List VtRecord :=
  dumpVtables.foldl
    (fun diff p =>
      let inv : String → List Nat :=
        buildInvVtable ((lookupLayout libVtables p.1).getD [])
      p.2.foldl
        (fun diff2 e =>
          if inv e.2 = [] then diff2 ++ [(p.1, e.2, natStr e.1, "missing")]
          else if e.1 ∉ inv e.2 then
            diff2 ++ [(p.1, e.2, natStr e.1, commaJoin ((inv e.2).map natStr))]
          else diff2)
        diff)
    []

/-- The inverse index as the specification describes it: the offsets of
the entries of the same-named actual vtable that carry the symbol,
duplicates preserved, insertion order kept, empty when the vtable id is
absent. -/
def invIndexSpec (actual : VtLayout) (vtable sym : String) : List Nat :=
  (((lookupLayout actual vtable).getD []).filter (fun e => e.2 = sym)).map Prod.fst

/-- The vtable diff as the specification describes it: for each golden
vtable and each golden (offset, symbol) pair, emit "missing" when the
symbol has no actual entries, the comma-joined actual offsets when the
expected offset is not among them, and nothing otherwise. -/
def diffVtablesSpec (golden actual : VtLayout) : List VtRecord :=
  golden.flatMap fun p =>
    p.2.filterMap fun e =>
      if invIndexSpec actual p.1 e.2 = [] then some (p.1, e.2, natStr e.1, "missing")
      else if e.1 ∉ invIndexSpec actual p.1 e.2 then
        some (p.1, e.2, natStr e.1, commaJoin ((invIndexSpec actual p.1 e.2).map natStr))
      else none

/-! ### Library resolver (source lines 193-196) -/

/-- Model of os.path.join(root, name) for a relative file name. -/
def osPathJoin (root name : String) : String := root ++ "/" ++ name

/-- One step of the resolution loop: a directory entry (root, name) binds
lib_paths[name] when name is registered and still unresolved. -/
def resolveStep (registered : String → Bool) (lp : String → Option String)
    (e : String × String) : String → Option String :=
  if registered e.2 = true ∧ lp e.2 = none then
    fun n => if n = e.2 then some (osPathJoin e.1 e.2) else lp n
  else lp

/-- Resolution over one search directory, whose recursive enumeration is
given as a list of (root, name) entries in iteration order. -/
def resolveDir (registered : String → Bool) (lp : String → Option String)
    (dir : List (String × String)) : String → Option String :=
  dir.foldl (resolveStep registered) lp

/-- Model of the resolution loop of ScanLibDirs: visit the search
directories in list order and bind each registered name to the first
matching file.  registered models membership in the lib_paths keys. -/
def resolveLibPaths (registered : String → Bool)
    (libDirs : List (List (String × String))) : String → Option String :=
  libDirs.foldl (resolveDir registered) (fun _ => none)

/-! ### Per-library scan (source lines 198-236) -/

/-- Results of the two per-library diff calls, abstracting the dump files
and binaries behind the paths: each call either returns a diff list or
raises one of the caught exception types (modelled as error). -/
structure DiffOracle where
  symDiff : String → String → Except Unit (List String)
  vtDiff : String → String → Except Unit (List VtRecord)

/-- Classification of one library by the scan loop. -/
inductive LibOutcome
  | notFound
  | pass
  | fail
deriving DecidableEq

/-- The symbol-compare block of the scan loop: returns the has_exception
flag contribution and the missing_symbols list. -/
def symOutcome (oracle : DiffOracle) (symDumps : String → Option String)
    (name p : String) : Bool × List String :=
  match symDumps name with
  | some dumpPath =>
    match oracle.symDiff dumpPath p with
    | .ok l => (false, l)
    | .error _ => (true, [])
  | none => (false, [])

/-- The vtable-compare block of the scan loop: returns the has_exception
flag contribution and the vtable_diff list. -/
def vtOutcome (oracle : DiffOracle) (vtDumps : String → Option String)
    (name p : String) : Bool × List VtRecord :=
  match vtDumps name with
  | some dumpPath =>
    match oracle.vtDiff dumpPath p with
    | .ok l => (false, l)
    | .error _ => (true, [])
  | none => (false, [])

/-- The body of the scan loop for one library: skip unresolved libraries,
otherwise diff and classify. -/
def processLib (oracle : DiffOracle) (symDumps vtDumps : String → Option String)
    (name : String) (libPath : Option String) : LibOutcome :=
  match libPath with
  | none => .notFound
  | some p =>
    let s := symOutcome oracle symDumps name p
    let v := vtOutcome oracle vtDumps name p
    if s.1 = true ∨ v.1 = true ∨ s.2 ≠ [] ∨ v.2 ≠ [] then .fail else .pass

/-- Contribution of one library to error_count. -/
def outcomeCount : LibOutcome → Nat
  | .fail => 1
  | _ => 0

/-- The scan loop of ScanLibDirs over the resolved (name, path) pairs:
the returned error_count. -/
def scanLibs (oracle : DiffOracle) (symDumps vtDumps : String → Option String)
    (libs : List (String × Option String)) : Nat :=
  libs.foldl (fun c l => c + outcomeCount (processLib oracle symDumps vtDumps l.1 l.2)) 0

/-! ### Top-level entry point (source lines 238-264) -/

/-- Model of testAbiCompatibility.  The file system and the two scans are
abstracted: isDir32 and isDir64 state whether the width-specific dump
directories for the active SDK version exist, and scan32 and scan64 are
the counts the two ScanLibDirs calls would return.  Failed assertions
surface as error with the assertion message. -/
def testAbiCompatibility (cpuAbi sdkVersion : String) (is64Bit : Bool)
    (isDir32 isDir64 : Bool) (scan32 scan64 : Nat) : Except String Unit :=
  if pyStartsWith cpuAbi "arm" ∨ pyStartsWith cpuAbi "x86" ∨ pyStartsWith cpuAbi "mips" then
    if isDir32 = false then .error ("No dump files for SDK version " ++ sdkVersion)
    else
      if is64Bit then
        if isDir64 = false then .error ("No dump files for SDK version " ++ sdkVersion)
        else
          if scan32 + scan64 = 0 then .ok ()
          else .error ("Total number of errors: " ++ natStr (scan32 + scan64))
      else
        if scan32 = 0 then .ok ()
        else .error ("Total number of errors: " ++ natStr scan32)
  else .error ("Unknown ABI " ++ cpuAbi)

/-! ### Order facts about the lexicographic comparison -/

theorem charListLeb_nil (b : List Char) : charListLeb [] b = true := by
  cases b <;> rfl

theorem charListLeb_cons_iff (a b : Char) (as bs : List Char) :
    charListLeb (a :: as) (b :: bs) = true ↔
      (a.toNat < b.toNat ∨ (a.toNat = b.toNat ∧ charListLeb as bs = true)) := by
  rcases Nat.lt_trichotomy a.toNat b.toNat with h | h | h
  · simp [charListLeb, h]
  · have h1 : ¬ a.toNat < b.toNat := by omega
    have h2 : ¬ b.toNat < a.toNat := by omega
    simp [charListLeb, h1, h2, h]
  · have h1 : ¬ a.toNat < b.toNat := by omega
    have h2 : ¬ a.toNat = b.toNat := by omega
    simp [charListLeb, h1, h, h2]

theorem charListLeb_total : ∀ a b : List Char,
    charListLeb a b = true ∨ charListLeb b a = true := by
  intro a
  induction a with
  | nil => intro b; exact Or.inl (charListLeb_nil b)
  | cons x as ih =>
    intro b
    cases b with
    | nil => exact Or.inr (charListLeb_nil (x :: as))
    | cons y bs =>
      rcases Nat.lt_trichotomy x.toNat y.toNat with h | h | h
      · exact Or.inl ((charListLeb_cons_iff x y as bs).mpr (Or.inl h))
      · rcases ih bs with h2 | h2
        · exact Or.inl ((charListLeb_cons_iff x y as bs).mpr (Or.inr ⟨h, h2⟩))
        · exact Or.inr ((charListLeb_cons_iff y x bs as).mpr (Or.inr ⟨h.symm, h2⟩))
      · exact Or.inr ((charListLeb_cons_iff y x bs as).mpr (Or.inl h))

theorem charListLeb_trans : ∀ a b c : List Char, charListLeb a b = true →
    charListLeb b c = true → charListLeb a c = true := by
  intro a
  induction a with
  | nil => intro b c _ _; exact charListLeb_nil c
  | cons x as ih =>
    intro b c h1 h2
    cases b with
    | nil => simp [charListLeb] at h1
    | cons y bs =>
      cases c with
      | nil => simp [charListLeb] at h2
      | cons z cs =>
        rcases (charListLeb_cons_iff x y as bs).mp h1 with hxy | ⟨hxy, hab⟩ <;>
          rcases (charListLeb_cons_iff y z bs cs).mp h2 with hyz | ⟨hyz, hbc⟩
        · exact (charListLeb_cons_iff x z as cs).mpr (Or.inl (by omega))
        · exact (charListLeb_cons_iff x z as cs).mpr (Or.inl (by omega))
        · exact (charListLeb_cons_iff x z as cs).mpr (Or.inl (by omega))
        · exact (charListLeb_cons_iff x z as cs).mpr
            (Or.inr ⟨by omega, ih bs cs hab hbc⟩)

instance : IsTotal String strLe := ⟨fun s t => charListLeb_total s.data t.data⟩

instance : IsTrans String strLe := ⟨fun a b c h1 h2 => charListLeb_trans a.data b.data c.data h1 h2⟩

/-! ### Claim C1 -/

/-- Claim C1: for every symbol dump file and library symbol set,
diffSymbols returns, sorted ascending in the lexicographic order with no
duplicates, exactly the symbols appearing as a trimmed non-empty line of
the dump and absent from the library symbol set, and the result is empty
iff the dump symbol set is a subset of the library symbol set. -/
theorem diffSymbols_correct (d A : List String) :
    (∀ s, s ∈ diffSymbols d A ↔ ((∃ l ∈ d, pyStrip l = s) ∧ s ≠ "" ∧ s ∉ A)) ∧
    (diffSymbols d A).Sorted strLe ∧ (diffSymbols d A).Nodup ∧
    (diffSymbols d A = [] ↔ ∀ s ∈ readSymbolDump d, s ∈ A) := by
  have hperm := List.perm_insertionSort strLe
    ((readSymbolDump d).filter (fun s => decide (s ∉ A)))
  refine ⟨?_, ?_, ?_, ?_⟩
  · intro s
    rw [diffSymbols, hperm.mem_iff]
    simp only [readSymbolDump, List.mem_filter, List.mem_dedup, List.mem_map,
      decide_eq_true_iff]
    constructor
    · rintro ⟨⟨l, ⟨hl, hne⟩, hs⟩, hA⟩
      exact ⟨⟨l, hl, hs⟩, hs ▸ hne, hA⟩
    · rintro ⟨⟨l, hl, hs⟩, hne, hA⟩
      exact ⟨⟨l, ⟨hl, hs ▸ hne⟩, hs⟩, hA⟩
  · exact List.sorted_insertionSort strLe _
  · exact hperm.nodup_iff.mpr
      (List.Nodup.filter _ (List.nodup_dedup ((d.filter (fun l => pyStrip l ≠ "")).map pyStrip)))
  · rw [diffSymbols, ← List.length_eq_zero, hperm.length_eq, List.length_eq_zero,
      List.filter_eq_nil_iff]
    simp [decide_eq_true_iff]

/-! ### Structure of the vtable differ -/

theorem buildInvVtable_fold (entries : List (Nat × String)) :
    ∀ (d : String → List Nat) (s : String),
      (entries.foldl (fun d e => fun s => if s = e.2 then d s ++ [e.1] else d s) d) s
        = d s ++ (entries.filter (fun e => e.2 = s)).map Prod.fst := by
  induction entries with
  | nil => intro d s; simp
  | cons e rest ih =>
    intro d s
    rw [List.foldl_cons, ih]
    by_cases h : s = e.2
    · simp [List.filter_cons, h]
    · simp [List.filter_cons, h, Ne.symm h]

theorem buildInvVtable_apply (entries : List (Nat × String)) (s : String) :
    buildInvVtable entries s = (entries.filter (fun e => e.2 = s)).map Prod.fst := by
  rw [buildInvVtable, buildInvVtable_fold]
  simp

theorem invIndexSpec_eq (actual : VtLayout) (v s : String) :
    buildInvVtable ((lookupLayout actual v).getD []) s = invIndexSpec actual v s :=
  buildInvVtable_apply _ s

theorem foldl_diffRows (inv : String → List Nat) (v : String) (l : List (Nat × String)) :
    ∀ acc : List VtRecord,
      l.foldl
        (fun diff2 e =>
          if inv e.2 = [] then diff2 ++ [(v, e.2, natStr e.1, "missing")]
          else if e.1 ∉ inv e.2 then
            diff2 ++ [(v, e.2, natStr e.1, commaJoin ((inv e.2).map natStr))]
          else diff2)
        acc
      = acc ++ l.filterMap
          (fun e =>
            if inv e.2 = [] then some (v, e.2, natStr e.1, "missing")
            else if e.1 ∉ inv e.2 then
              some (v, e.2, natStr e.1, commaJoin ((inv e.2).map natStr))
            else none) := by
  induction l with
  | nil => intro acc; simp
  | cons e rest ih =>
    intro acc
    rw [List.foldl_cons, List.filterMap_cons, ih]
    split_ifs <;> simp

theorem diffVtablesSpec_cons (p : String × List (Nat × String)) (rest actual : VtLayout) :
    diffVtablesSpec (p :: rest) actual
      = p.2.filterMap
          (fun e =>
            if invIndexSpec actual p.1 e.2 = [] then some (p.1, e.2, natStr e.1, "missing")
            else if e.1 ∉ invIndexSpec actual p.1 e.2 then
              some (p.1, e.2, natStr e.1, commaJoin ((invIndexSpec actual p.1 e.2).map natStr))
            else none)
        ++ diffVtablesSpec rest actual := by
  rw [diffVtablesSpec, List.flatMap_cons, ← diffVtablesSpec]

theorem diffVtables_fold (actual : VtLayout) :
    ∀ (golden : VtLayout) (acc : List VtRecord),
      golden.foldl
        (fun diff p =>
          let inv : String → List Nat :=
            buildInvVtable ((lookupLayout actual p.1).getD [])
          p.2.foldl
            (fun diff2 e =>
              if inv e.2 = [] then diff2 ++ [(p.1, e.2, natStr e.1, "missing")]
              else if e.1 ∉ inv e.2 then
                diff2 ++ [(p.1, e.2, natStr e.1, commaJoin ((inv e.2).map natStr))]
              else diff2)
            diff)
        acc
        = acc ++ diffVtablesSpec golden actual := by
  intro golden
  induction golden with
  | nil => intro acc; simp [diffVtablesSpec]
  | cons p rest ih =>
    intro acc
    rw [List.foldl_cons]
    rw [foldl_diffRows, ih, List.append_assoc, diffVtablesSpec_cons]
    congr 1
    congr 1
    apply List.filterMap_congr
    intro e _
    rw [invIndexSpec_eq actual p.1 e.2]

theorem diffVtables_eq_flat (golden actual : VtLayout) :
    diffVtables golden actual = diffVtablesSpec golden actual := by
  rw [diffVtables]
  exact (diffVtables_fold actual golden []).trans (by simp)

/-- Claim C2: diffVtables computes, per golden vtable id, the inverse
index of the same-named actual vtable (empty when the id is absent,
duplicate offsets in insertion order) and emits per golden pair a
missing row, a comma-joined row, or nothing, exactly as the
specification-side definition diffVtablesSpec states; vtable ids present
only in the actual layout are never reported. -/
theorem diffVtables_correct (golden actual : VtLayout) :
    diffVtables golden actual = diffVtablesSpec golden actual ∧
    ∀ r ∈ diffVtables golden actual, ∃ p ∈ golden, r.1 = p.1 := by
  refine ⟨diffVtables_eq_flat golden actual, ?_⟩
  intro r hr
  rw [diffVtables_eq_flat, diffVtablesSpec, List.mem_flatMap] at hr
  obtain ⟨p, hp, hr⟩ := hr
  rw [List.mem_filterMap] at hr
  obtain ⟨e, _, hfe⟩ := hr
  refine ⟨p, hp, ?_⟩
  split_ifs at hfe <;> cases hfe <;> rfl

/-! ### Shape of the offset strings -/

theorem digitChar_isDigit (n : Nat) (h : n < 10) : (Nat.digitChar n).isDigit = true := by
  interval_cases n <;> decide

theorem natDigitsAux_isDigit : ∀ fuel n c, c ∈ natDigitsAux fuel n → c.isDigit = true := by
  intro fuel
  induction fuel with
  | zero => intro n c hc; simp [natDigitsAux] at hc
  | succ fuel ih =>
    intro n c hc
    rw [natDigitsAux] at hc
    split_ifs at hc with h
    · rw [List.mem_singleton] at hc
      exact hc ▸ digitChar_isDigit n h
    · rw [List.mem_append] at hc
      rcases hc with hc | hc
      · exact ih _ _ hc
      · rw [List.mem_singleton] at hc
        exact hc ▸ digitChar_isDigit (n % 10) (Nat.mod_lt n (by omega))

theorem commaJoin_data_mem : ∀ (l : List String),
    (∀ s ∈ l, ∀ c ∈ s.data, c.isDigit = true) →
    ∀ c ∈ (commaJoin l).data, c.isDigit = true ∨ c = ',' := by
  intro l
  induction l with
  | nil => intro _ c hc; simp [commaJoin] at hc
  | cons s rest ih =>
    cases rest with
    | nil =>
      intro h c hc
      exact Or.inl (h s (by simp) c hc)
    | cons t rest2 =>
      intro h c hc
      rw [commaJoin, String.data_append, String.data_append, List.mem_append,
        List.mem_append] at hc
      rcases hc with (hc | hc) | hc
      · exact Or.inl (h s (by simp) c hc)
      · rw [show ("," : String).data = [','] from rfl, List.mem_singleton] at hc
        exact Or.inr hc
      · exact ih (fun u hu => h u (List.mem_cons_of_mem s hu)) c hc

theorem commaJoin_natStr_ne_missing (offs : List Nat) :
    commaJoin (offs.map natStr) ≠ "missing" := by
  intro heq
  have hall : ∀ s ∈ offs.map natStr, ∀ c ∈ s.data, c.isDigit = true := by
    intro s hs c hc
    rw [List.mem_map] at hs
    obtain ⟨n, _, rfl⟩ := hs
    exact natDigitsAux_isDigit (n + 1) n c hc
  have hm : ('m' : Char) ∈ (commaJoin (offs.map natStr)).data := by
    rw [heq]; decide
  rcases commaJoin_data_mem (offs.map natStr) hall 'm' hm with hd | hc
  · exact absurd hd (by decide)
  · exact absurd hc (by decide)

/-! ### Claims C7, C9, C10 -/

/-- Claim C7: when a symbol occurs at offsets 8 and 16 in the actual
layout, a golden expectation at offset 16 produces no mismatch, while a
golden expectation at offset 24 produces a mismatch whose actual field
is the string "8,16". -/
theorem diffVtables_duplicate_offsets (lib : VtLayout) (v s : String)
    (h : invIndexSpec lib v s = [8, 16]) :
    diffVtables [(v, [(16, s)])] lib = [] ∧
    diffVtables [(v, [(24, s)])] lib = [(v, s, "24", "8,16")] := by
  have h24 : natStr 24 = "24" := rfl
  have hj : commaJoin [natStr 8, natStr 16] = "8,16" := by decide
  constructor
  · rw [diffVtables_eq_flat, diffVtablesSpec]
    simp [h]
  · rw [diffVtables_eq_flat, diffVtablesSpec]
    simp [h, h24, hj]

/-- Claim C9: both differs are deterministic functions of their inputs;
two runs on identical inputs return identical results, in identical
order. -/
theorem differs_deterministic (d A : List String) (g a : VtLayout) :
    diffSymbols d A = diffSymbols d A ∧ diffVtables g a = diffVtables g a :=
  ⟨rfl, rfl⟩

/-- Claim C10: the fourth component of a diff row equals "missing" iff
the golden symbol occurs at no offset in the same-named actual vtable;
otherwise it is the comma-joined list of the actual offsets, which never
equals the marker "missing" since it only holds digits and commas. -/
theorem diffVtables_missing_marker (golden actual : VtLayout) (r : VtRecord)
    (hr : r ∈ diffVtables golden actual) :
    (r.2.2.2 = "missing" ↔ invIndexSpec actual r.1 r.2.1 = []) ∧
    (invIndexSpec actual r.1 r.2.1 ≠ [] →
      r.2.2.2 = commaJoin ((invIndexSpec actual r.1 r.2.1).map natStr)) := by
  rw [diffVtables_eq_flat, diffVtablesSpec, List.mem_flatMap] at hr
  obtain ⟨p, hp, hr⟩ := hr
  rw [List.mem_filterMap] at hr
  obtain ⟨e, he, hfe⟩ := hr
  split_ifs at hfe with h1 h2
  · cases hfe
    exact ⟨⟨fun _ => h1, fun _ => rfl⟩, fun hne => absurd h1 hne⟩
  · cases hfe
    refine ⟨⟨fun hmiss => absurd hmiss (commaJoin_natStr_ne_missing _), ?_⟩, fun _ => rfl⟩
    intro hempty
    exact absurd hempty h1

/-! ### Structure of the resolver -/

theorem resolveDir_apply (registered : String → Bool) :
    ∀ (dir : List (String × String)) (lp : String → Option String) (n : String),
      resolveDir registered lp dir n
        = (lp n).or
            (if registered n = true then
              (dir.find? (fun e => e.2 == n)).map (fun e => osPathJoin e.1 e.2)
            else none) := by
  intro dir
  induction dir with
  | nil =>
    intro lp n
    cases hlp : lp n <;> simp [resolveDir, Option.or, hlp]
  | cons e rest ih =>
    intro lp n
    rw [resolveDir, List.foldl_cons, ← resolveDir, ih]
    by_cases hcond : registered e.2 = true ∧ lp e.2 = none
    · by_cases hn : n = e.2
      · subst hn
        rw [resolveStep, if_pos hcond, hcond.2]
        simp [Option.or, hcond.1, List.find?_cons_of_pos]
      · rw [resolveStep, if_pos hcond]
        simp only [if_neg hn]
        rw [List.find?_cons_of_neg]
        simp [Ne.symm hn]
    · rw [resolveStep, if_neg hcond]
      by_cases hn : e.2 = n
      · subst hn
        rcases hlp : lp e.2 with _ | p
        · have hr : ¬ registered e.2 = true := fun hrt => hcond ⟨hrt, hlp⟩
          simp [hr]
        · simp [Option.or]
      · rw [List.find?_cons_of_neg]
        simp [hn]

theorem resolveFold_apply (registered : String → Bool) :
    ∀ (libDirs : List (List (String × String))) (lp : String → Option String) (n : String),
      (libDirs.foldl (resolveDir registered) lp) n
        = (lp n).or
            (if registered n = true then
              (libDirs.flatten.find? (fun e => e.2 == n)).map (fun e => osPathJoin e.1 e.2)
            else none) := by
  intro libDirs
  induction libDirs with
  | nil =>
    intro lp n
    cases hlp : lp n <;> simp [Option.or, hlp]
  | cons d rest ih =>
    intro lp n
    rw [List.foldl_cons, ih, resolveDir_apply, Option.or_assoc]
    congr 1
    by_cases hr : registered n = true
    · simp only [hr, if_true, List.flatten_cons, List.find?_append]
      cases hd : d.find? (fun e => e.2 == n) <;> simp [Option.or]
    · simp [hr]

/-- Claim C5: for a registered library name, the bound actual path is the
first file with exactly that base name when the search directories are
visited in list order, each enumerated recursively; later matches are
ignored, and with a vendor directory listed before a system directory
the vendor copy wins. -/
theorem resolveLibPaths_first_match (registered : String → Bool)
    (libDirs : List (List (String × String))) (name : String)
    (hreg : registered name = true) :
    resolveLibPaths registered libDirs name
      = (libDirs.flatten.find? (fun e => e.2 == name)).map (fun e => osPathJoin e.1 e.2) ∧
    ∀ d₁ d₂ : List (String × String), (∃ e ∈ d₁, e.2 = name) →
      resolveLibPaths registered [d₁, d₂] name
        = (d₁.find? (fun e => e.2 == name)).map (fun e => osPathJoin e.1 e.2) := by
  constructor
  · rw [resolveLibPaths, resolveFold_apply]
    simp [hreg, Option.or]
  · rintro d₁ d₂ ⟨e, he, hen⟩
    rw [resolveLibPaths, resolveFold_apply]
    have hsome : (d₁.find? (fun e => e.2 == name)).isSome :=
      List.find?_isSome.mpr ⟨e, he, by simp [hen]⟩
    rcases hfind : d₁.find? (fun e => e.2 == name) with _ | x
    · rw [hfind] at hsome; simp at hsome
    · simp [hreg, Option.or, List.find?_append, hfind]

/-! ### Structure of the scan loop -/

theorem foldl_add_sum {α : Type} (f : α → Nat) :
    ∀ (l : List α) (a : Nat), l.foldl (fun c x => c + f x) a = a + (l.map f).sum := by
  intro l
  induction l with
  | nil => intro a; simp
  | cons x rest ih =>
    intro a
    rw [List.foldl_cons, ih, List.map_cons, List.sum_cons]
    omega

theorem scanLibs_eq_sum (oracle : DiffOracle) (symDumps vtDumps : String → Option String)
    (libs : List (String × Option String)) :
    scanLibs oracle symDumps vtDumps libs
      = (libs.map (fun l => outcomeCount (processLib oracle symDumps vtDumps l.1 l.2))).sum := by
  rw [scanLibs, foldl_add_sum]
  simp

/-! ### Claims C3, C6, C8 -/

/-- Claim C3: a library with a resolved actual path contributes one to
the incompatible count iff its missing-symbol list is non-empty, or its
vtable-mismatch list is non-empty, or a caught per-library exception set
the unrecoverable-failure flag; otherwise it is classified as a pass and
contributes zero. -/
theorem processLib_incompatible_iff (oracle : DiffOracle)
    (symDumps vtDumps : String → Option String) (name p : String) :
    (outcomeCount (processLib oracle symDumps vtDumps name (some p)) = 1 ↔
      ((symOutcome oracle symDumps name p).2 ≠ [] ∨
       (vtOutcome oracle vtDumps name p).2 ≠ [] ∨
       (symOutcome oracle symDumps name p).1 = true ∨
       (vtOutcome oracle vtDumps name p).1 = true)) ∧
    (processLib oracle symDumps vtDumps name (some p) = .pass ↔
      ¬((symOutcome oracle symDumps name p).2 ≠ [] ∨
        (vtOutcome oracle vtDumps name p).2 ≠ [] ∨
        (symOutcome oracle symDumps name p).1 = true ∨
        (vtOutcome oracle vtDumps name p).1 = true)) := by
  have hunfold : processLib oracle symDumps vtDumps name (some p)
      = if (symOutcome oracle symDumps name p).1 = true ∨
            (vtOutcome oracle vtDumps name p).1 = true ∨
            (symOutcome oracle symDumps name p).2 ≠ [] ∨
            (vtOutcome oracle vtDumps name p).2 ≠ [] then
          LibOutcome.fail
        else LibOutcome.pass := rfl
  rw [hunfold]
  split_ifs with h
  · exact ⟨iff_of_true rfl (by tauto),
      iff_of_false (by decide) (not_not_intro (by tauto))⟩
  · exact ⟨iff_of_false (by decide) (by tauto), iff_of_true rfl (by tauto)⟩

/-- Claim C6: a library with a registered dump of some kind but no
resolved actual path is classified as not found, and its presence in the
scan list leaves the returned error count unchanged. -/
theorem processLib_not_found (oracle : DiffOracle)
    (symDumps vtDumps : String → Option String) (name : String)
    (hdump : (symDumps name).isSome = true ∨ (vtDumps name).isSome = true) :
    processLib oracle symDumps vtDumps name none = .notFound ∧
    ∀ pre post : List (String × Option String),
      scanLibs oracle symDumps vtDumps (pre ++ (name, none) :: post)
        = scanLibs oracle symDumps vtDumps (pre ++ post) := by
  refine ⟨rfl, ?_⟩
  intro pre post
  rw [scanLibs_eq_sum, scanLibs_eq_sum]
  simp only [List.map_append, List.map_cons, List.sum_append, List.sum_cons]
  have h0 : outcomeCount (processLib oracle symDumps vtDumps name none) = 0 := rfl
  rw [h0]
  omega

/-- Claim C8: a caught per-library failure while diffing symbols or
vtables marks that library failed, and the scan of the other libraries
continues: the aggregate count is the count of the preceding libraries,
plus one, plus the count of the following libraries. -/
theorem scanLibs_exception_counted (oracle : DiffOracle)
    (symDumps vtDumps : String → Option String) (name p : String)
    (hexc :
      (∃ dp, symDumps name = some dp ∧ oracle.symDiff dp p = .error ()) ∨
      (∃ dp, vtDumps name = some dp ∧ oracle.vtDiff dp p = .error ())) :
    processLib oracle symDumps vtDumps name (some p) = .fail ∧
    ∀ pre post : List (String × Option String),
      scanLibs oracle symDumps vtDumps (pre ++ (name, some p) :: post)
        = scanLibs oracle symDumps vtDumps pre + 1 + scanLibs oracle symDumps vtDumps post := by
  have hflag : (symOutcome oracle symDumps name p).1 = true ∨
      (vtOutcome oracle vtDumps name p).1 = true := by
    rcases hexc with ⟨dp, hdp, herr⟩ | ⟨dp, hdp, herr⟩
    · left; simp [symOutcome, hdp, herr]
    · right; simp [vtOutcome, hdp, herr]
  have hunfold : processLib oracle symDumps vtDumps name (some p)
      = if (symOutcome oracle symDumps name p).1 = true ∨
            (vtOutcome oracle vtDumps name p).1 = true ∨
            (symOutcome oracle symDumps name p).2 ≠ [] ∨
            (vtOutcome oracle vtDumps name p).2 ≠ [] then
          LibOutcome.fail
        else LibOutcome.pass := rfl
  have hfail : processLib oracle symDumps vtDumps name (some p) = .fail := by
    rw [hunfold, if_pos (by tauto)]
  refine ⟨hfail, ?_⟩
  intro pre post
  rw [scanLibs_eq_sum, scanLibs_eq_sum, scanLibs_eq_sum]
  simp only [List.map_append, List.map_cons, List.sum_append, List.sum_cons]
  rw [hfail]
  have h1 : outcomeCount LibOutcome.fail = 1 := rfl
  rw [h1]
  omega

/-! ### Claim C4 -/

/-- Claim C4: with a known ABI, a missing 32-bit dump directory (or a
missing 64-bit dump directory on a 64-bit target) makes the top-level
test fail with the configuration message, independently of the scan
counts; the test succeeds iff the required dump directories exist and
the summed incompatible count over the required widths is zero. -/
theorem testAbiCompatibility_config (cpuAbi sdk : String) (is64 d32 d64 : Bool)
    (s32 s64 : Nat)
    (habi : pyStartsWith cpuAbi "arm" = true ∨ pyStartsWith cpuAbi "x86" = true ∨
      pyStartsWith cpuAbi "mips" = true) :
    (d32 = false →
      testAbiCompatibility cpuAbi sdk is64 d32 d64 s32 s64
        = .error ("No dump files for SDK version " ++ sdk)) ∧
    (d32 = true → is64 = true → d64 = false →
      testAbiCompatibility cpuAbi sdk is64 d32 d64 s32 s64
        = .error ("No dump files for SDK version " ++ sdk)) ∧
    (testAbiCompatibility cpuAbi sdk is64 d32 d64 s32 s64 = .ok () ↔
      (d32 = true ∧ (is64 = true → d64 = true) ∧
        s32 + (if is64 then s64 else 0) = 0)) := by
  rw [testAbiCompatibility, if_pos habi]
  refine ⟨?_, ?_, ?_⟩
  · intro h32
    subst h32
    simp
  · intro h32 h64 hd64
    subst h32
    subst h64
    subst hd64
    simp
  · cases is64 <;> cases d32 <;> cases d64 <;> by_cases hs : s32 + s64 = 0 <;>
      by_cases hs32 : s32 = 0 <;> simp_all

/-! ### Concrete witnesses -/

/-- Witness for claim C1 at a concrete dump and symbol set. -/
theorem diffSymbols_correct_witness :
    (∀ s, s ∈ diffSymbols ["foo\n", "bar\n", " \n", "foo\n"] ["foo"] ↔
      ((∃ l ∈ ["foo\n", "bar\n", " \n", "foo\n"], pyStrip l = s) ∧ s ≠ "" ∧
        s ∉ ["foo"])) ∧
    (diffSymbols ["foo\n", "bar\n", " \n", "foo\n"] ["foo"]).Sorted strLe ∧
    (diffSymbols ["foo\n", "bar\n", " \n", "foo\n"] ["foo"]).Nodup ∧
    (diffSymbols ["foo\n", "bar\n", " \n", "foo\n"] ["foo"] = [] ↔
      ∀ s ∈ readSymbolDump ["foo\n", "bar\n", " \n", "foo\n"], s ∈ ["foo"]) :=
  diffSymbols_correct ["foo\n", "bar\n", " \n", "foo\n"] ["foo"]

/-- Witness for claim C2 at a concrete pair of layouts. -/
theorem diffVtables_correct_witness :
    diffVtables [("Vtable_X", [(0, "m1"), (8, "m2")])] [("Vtable_X", [(0, "m1")])]
        = diffVtablesSpec [("Vtable_X", [(0, "m1"), (8, "m2")])] [("Vtable_X", [(0, "m1")])] ∧
    ∀ r ∈ diffVtables [("Vtable_X", [(0, "m1"), (8, "m2")])] [("Vtable_X", [(0, "m1")])],
      ∃ p ∈ [("Vtable_X", [(0, "m1"), (8, "m2")])], r.1 = p.1 :=
  diffVtables_correct [("Vtable_X", [(0, "m1"), (8, "m2")])] [("Vtable_X", [(0, "m1")])]

/-- Witness for claim C3 at a concrete oracle and library. -/
theorem processLib_incompatible_iff_witness :
    (outcomeCount (processLib ⟨fun _ _ => .ok ["x"], fun _ _ => .ok []⟩
        (fun _ => some "d") (fun _ => none) "libx.so" (some "p")) = 1 ↔
      ((symOutcome ⟨fun _ _ => .ok ["x"], fun _ _ => .ok []⟩
          (fun _ => some "d") "libx.so" "p").2 ≠ [] ∨
       (vtOutcome ⟨fun _ _ => .ok ["x"], fun _ _ => .ok []⟩
          (fun _ => none) "libx.so" "p").2 ≠ [] ∨
       (symOutcome ⟨fun _ _ => .ok ["x"], fun _ _ => .ok []⟩
          (fun _ => some "d") "libx.so" "p").1 = true ∨
       (vtOutcome ⟨fun _ _ => .ok ["x"], fun _ _ => .ok []⟩
          (fun _ => none) "libx.so" "p").1 = true)) ∧
    (processLib ⟨fun _ _ => .ok ["x"], fun _ _ => .ok []⟩
        (fun _ => some "d") (fun _ => none) "libx.so" (some "p") = .pass ↔
      ¬((symOutcome ⟨fun _ _ => .ok ["x"], fun _ _ => .ok []⟩
          (fun _ => some "d") "libx.so" "p").2 ≠ [] ∨
        (vtOutcome ⟨fun _ _ => .ok ["x"], fun _ _ => .ok []⟩
          (fun _ => none) "libx.so" "p").2 ≠ [] ∨
        (symOutcome ⟨fun _ _ => .ok ["x"], fun _ _ => .ok []⟩
          (fun _ => some "d") "libx.so" "p").1 = true ∨
        (vtOutcome ⟨fun _ _ => .ok ["x"], fun _ _ => .ok []⟩
          (fun _ => none) "libx.so" "p").1 = true)) :=
  processLib_incompatible_iff ⟨fun _ _ => .ok ["x"], fun _ _ => .ok []⟩
    (fun _ => some "d") (fun _ => none) "libx.so" "p"

/-- Witness for claim C4 at a concrete 64-bit arm target. -/
theorem testAbiCompatibility_config_witness :
    (pyStartsWith "arm64-v8a" "arm" = true ∨ pyStartsWith "arm64-v8a" "x86" = true ∨
      pyStartsWith "arm64-v8a" "mips" = true) ∧
    ((false = false →
      testAbiCompatibility "arm64-v8a" "28" true false true 3 4
        = .error ("No dump files for SDK version " ++ "28")) ∧
    (false = true → true = true → true = false →
      testAbiCompatibility "arm64-v8a" "28" true false true 3 4
        = .error ("No dump files for SDK version " ++ "28")) ∧
    (testAbiCompatibility "arm64-v8a" "28" true false true 3 4 = .ok () ↔
      (false = true ∧ (true = true → true = true) ∧
        3 + (if true then 4 else 0) = 0))) :=
  ⟨by decide,
    testAbiCompatibility_config "arm64-v8a" "28" true false true 3 4 (by decide)⟩

/-- Witness for claim C5 at a vendor directory listed before a system
directory, both holding the library. -/
theorem resolveLibPaths_first_match_witness :
    (fun n => n == "libx.so") "libx.so" = true ∧
    (resolveLibPaths (fun n => n == "libx.so")
        [[("vendor_lib", "libx.so")], [("system_lib", "libx.so")]] "libx.so"
      = ([[("vendor_lib", "libx.so")], [("system_lib", "libx.so")]].flatten.find?
          (fun e => e.2 == "libx.so")).map (fun e => osPathJoin e.1 e.2) ∧
    ∀ d₁ d₂ : List (String × String), (∃ e ∈ d₁, e.2 = "libx.so") →
      resolveLibPaths (fun n => n == "libx.so") [d₁, d₂] "libx.so"
        = (d₁.find? (fun e => e.2 == "libx.so")).map (fun e => osPathJoin e.1 e.2)) :=
  ⟨by decide,
    resolveLibPaths_first_match (fun n => n == "libx.so")
      [[("vendor_lib", "libx.so")], [("system_lib", "libx.so")]] "libx.so" (by decide)⟩

/-- Witness for claim C6 at a concrete unresolved library. -/
theorem processLib_not_found_witness :
    (((fun _ => some "d") ("libx.so" : String) : Option String).isSome = true ∨
      ((fun _ => none) ("libx.so" : String) : Option String).isSome = true) ∧
    (processLib ⟨fun _ _ => .ok [], fun _ _ => .ok []⟩
        (fun _ => some "d") (fun _ => none) "libx.so" none = .notFound ∧
    ∀ pre post : List (String × Option String),
      scanLibs ⟨fun _ _ => .ok [], fun _ _ => .ok []⟩
          (fun _ => some "d") (fun _ => none) (pre ++ ("libx.so", none) :: post)
        = scanLibs ⟨fun _ _ => .ok [], fun _ _ => .ok []⟩
            (fun _ => some "d") (fun _ => none) (pre ++ post)) :=
  ⟨Or.inl rfl,
    processLib_not_found ⟨fun _ _ => .ok [], fun _ _ => .ok []⟩
      (fun _ => some "d") (fun _ => none) "libx.so" (Or.inl rfl)⟩

/-- Witness for claim C7 at an actual layout holding the symbol at
offsets 8 and 16. -/
theorem diffVtables_duplicate_offsets_witness :
    invIndexSpec [("V", [(8, "f"), (16, "f")])] "V" "f" = [8, 16] ∧
    (diffVtables [("V", [(16, "f")])] [("V", [(8, "f"), (16, "f")])] = [] ∧
    diffVtables [("V", [(24, "f")])] [("V", [(8, "f"), (16, "f")])]
      = [("V", "f", "24", "8,16")]) :=
  ⟨by decide,
    diffVtables_duplicate_offsets [("V", [(8, "f"), (16, "f")])] "V" "f" (by decide)⟩

/-- Witness for claim C8 at an oracle whose symbol diff raises. -/
theorem scanLibs_exception_counted_witness :
    ((∃ dp, (fun _ => some "d") ("libx.so" : String) = some dp ∧
        (DiffOracle.symDiff ⟨fun _ _ => .error (), fun _ _ => .ok []⟩) dp "p" = .error ()) ∨
     (∃ dp, (fun _ => none) ("libx.so" : String) = some dp ∧
        (DiffOracle.vtDiff ⟨fun _ _ => .error (), fun _ _ => .ok []⟩) dp "p" = .error ())) ∧
    (processLib ⟨fun _ _ => .error (), fun _ _ => .ok []⟩
        (fun _ => some "d") (fun _ => none) "libx.so" (some "p") = .fail ∧
    ∀ pre post : List (String × Option String),
      scanLibs ⟨fun _ _ => .error (), fun _ _ => .ok []⟩
          (fun _ => some "d") (fun _ => none) (pre ++ ("libx.so", some "p") :: post)
        = scanLibs ⟨fun _ _ => .error (), fun _ _ => .ok []⟩
            (fun _ => some "d") (fun _ => none) pre + 1
          + scanLibs ⟨fun _ _ => .error (), fun _ _ => .ok []⟩
              (fun _ => some "d") (fun _ => none) post) :=
  ⟨Or.inl ⟨"d", rfl, rfl⟩,
    scanLibs_exception_counted ⟨fun _ _ => .error (), fun _ _ => .ok []⟩
      (fun _ => some "d") (fun _ => none) "libx.so" "p" (Or.inl ⟨"d", rfl, rfl⟩)⟩

/-- Witness for claim C9 at concrete inputs. -/
theorem differs_deterministic_witness :
    diffSymbols ["foo\n", "bar\n"] ["foo"] = diffSymbols ["foo\n", "bar\n"] ["foo"] ∧
    diffVtables [("V", [(8, "m")])] [] = diffVtables [("V", [(8, "m")])] [] :=
  differs_deterministic ["foo\n", "bar\n"] ["foo"] [("V", [(8, "m")])] []

/-- Witness for claim C10 at a concrete missing row. -/
theorem diffVtables_missing_marker_witness :
    ("V", "m", "8", "missing") ∈ diffVtables [("V", [(8, "m")])] [] ∧
    ((("V", "m", "8", "missing") : VtRecord).2.2.2 = "missing" ↔
      invIndexSpec [] (("V", "m", "8", "missing") : VtRecord).1
        (("V", "m", "8", "missing") : VtRecord).2.1 = []) ∧
    (invIndexSpec [] (("V", "m", "8", "missing") : VtRecord).1
        (("V", "m", "8", "missing") : VtRecord).2.1 ≠ [] →
      (("V", "m", "8", "missing") : VtRecord).2.2.2
        = commaJoin ((invIndexSpec [] (("V", "m", "8", "missing") : VtRecord).1
            (("V", "m", "8", "missing") : VtRecord).2.1).map natStr)) :=
  ⟨by decide,
    (diffVtables_missing_marker [("V", [(8, "m")])] [] ("V", "m", "8", "missing")
      (by decide)).1,
    (diffVtables_missing_marker [("V", [(8, "m")])] [] ("V", "m", "8", "missing")
      (by decide)).2⟩
